import Mathlib

/-!
Verification development for the Zen-Sync reconciliation engine
(`sync.py`).  The Python code is shallowly embedded: paths are lists of
path segments (forward-slash separated components), remote keys are
lists of segments, the filesystem is an association list from
(path-type, relative path) to stat records, and Python `dict` values are
association lists.  A Python `KeyError` (missing dict key) is modelled
with `Except String`.
-/

namespace ZenSync

/-! ### Glob matching: model of Python `fnmatch.fnmatch` (POSIX case rules)

`fnmatch.fnmatch(name, pat)` matches the whole name against a shell
glob: `*` matches any run of characters (including `/`), `?` matches a
single character, `[...]` matches a character set (with `!` negation,
ranges `a-b`, a leading `]` taken literally, and an unterminated `[`
taken as a literal `[`).  The recursion below consumes at least one
character of `name ++ pat` per step, so the fuel argument
`name.length + pat.length + 1` can never be exhausted; it only serves to
make the definition structural (hence kernel-computable). -/

/-- Split the characters following a `[` into the class body and the
remainder after the closing `]`; `none` when the class is unterminated. -/
def breakOnRBracket : List Char → Option (List Char × List Char)
  | [] => none
  | ']' :: t => some ([], t)
  | c :: t =>
    match breakOnRBracket t with
    | some (a, b) => some (c :: a, b)
    | none => none

/-- Parse a character class: returns (negated?, class body, rest of the
pattern).  Mirrors `fnmatch.translate`: a leading `!` negates; a `]`
right after `[` (or after `[!`) is a literal member of the class. -/
def splitClass (p : List Char) : Option (Bool × List Char × List Char) :=
  match p with
  | '!' :: ']' :: rest =>
    match breakOnRBracket rest with
    | some (a, b) => some (true, ']' :: a, b)
    | none => none
  | '!' :: rest =>
    match breakOnRBracket rest with
    | some (a, b) => some (true, a, b)
    | none => none
  | ']' :: rest =>
    match breakOnRBracket rest with
    | some (a, b) => some (false, ']' :: a, b)
    | none => none
  | rest =>
    match breakOnRBracket rest with
    | some (a, b) => some (false, a, b)
    | none => none

/-- Does character `c` match the body of a character class?  `a-b` is a
codepoint range; other characters are literal members. -/
def classMatch (c : Char) : List Char → Bool
  | a :: '-' :: b :: rest => (decide (a ≤ c) && decide (c ≤ b)) || classMatch c rest
  | a :: rest => (a == c) || classMatch c rest
  | [] => false

/-- Fueled glob matcher; the fuel is a structural-recursion device only
(see the section comment for the sufficiency argument). -/
def fnmatchGo : Nat → List Char → List Char → Bool
  | 0, _, _ => false
  | _ + 1, s, [] => s.isEmpty
  | fuel + 1, s, '*' :: pr =>
    fnmatchGo fuel s pr ||
      (match s with
       | [] => false
       | _ :: sr => fnmatchGo fuel sr ('*' :: pr))
  | fuel + 1, s, '?' :: pr =>
    (match s with
     | [] => false
     | _ :: sr => fnmatchGo fuel sr pr)
  | fuel + 1, s, '[' :: pr =>
    (match splitClass pr with
     | some (neg, cls, rest) =>
       (match s with
        | [] => false
        | c :: sr => (classMatch c cls != neg) && fnmatchGo fuel sr rest)
     | none =>
       (match s with
        | [] => false
        | c :: sr => (c == '[') && fnmatchGo fuel sr pr))
  | fuel + 1, s, c :: pr =>
    (match s with
     | [] => false
     | d :: sr => (c == d) && fnmatchGo fuel sr pr)

/-- Model of `fnmatch.fnmatch(name, pat)` (POSIX: no case folding). -/
def fnmatch (name pat : String) : Bool :=
  fnmatchGo (name.length + pat.length + 1) name.data pat.data

example : fnmatch "cache2/sub/data.db" "cache2/*" = true := by decide
example : fnmatch "profile/cache2/x" "cache2/*" = false := by decide
example : fnmatch "data.db" "*.db" = true := by decide
example : fnmatch "abc" "a[b-d]c" = true := by decide
example : fnmatch "aec" "a[!b-d]c" = true := by decide
example : fnmatch "a[c" "a[c" = true := by decide

/-! ### Pattern classifier: `should_include_file` and directory pruning

A local path is a list of segments relative to its root; the rendered
relative path joins them with `/` (the code normalizes `\` to `/`), and
the bare file name is the last segment. -/

/-- Rendering of `str(relative_path)` with forward slashes. -/
def pathString (p : List String) : String :=
  String.intercalate "/" p

/-- The bare file name `file_path.name`: the last path segment. -/
def fileName (p : List String) : String :=
  (p.getLast?).getD ""

/-- Does the relative path or the bare file name match the glob?  This
is the test `fnmatch(str_path, pattern) or fnmatch(file_path.name,
pattern)` applied by `should_include_file` to each pattern. -/
def matchesPattern (p : List String) (pat : String) : Bool :=
  fnmatch (pathString p) pat || fnmatch (fileName p) pat

/-- Model of `ZenS3Sync.should_include_file` (sync.py:236-249): any
exclude-pattern match refuses the file; otherwise the include loop
returns `true` on a match and the function falls through to `true`. -/
def should_include_file (excl incl : List String) (p : List String) : Bool :=
  if excl.any (matchesPattern p) then false
  else if incl.any (matchesPattern p) then true
  else true

/-- First segment of a pattern, `pattern.split('/')[0]`: the characters
before the first `/` (the whole pattern when it has no `/`). -/
def firstSegment (pat : String) : String :=
  ⟨pat.data.takeWhile (fun c => c != '/')⟩

/-- Does the pattern contain a slash (`'/' in pattern`)? -/
def hasSlash (pat : String) : Bool :=
  pat.data.contains '/'

/-- Model of the `should_skip` computation in `_scan_directory`
(sync.py:284-289): some exclude pattern contains `/` and its first
segment matches the directory name. -/
def dirShouldSkip (excl : List String) (d : String) : Bool :=
  excl.any (fun pat => hasSlash pat && fnmatch d (firstSegment pat))

/-- Model of the `has_important_files` rescue check in `_scan_directory`
(sync.py:292-297): some include pattern contains `/` and its first
segment matches the directory name. -/
def dirRescued (incl : List String) (d : String) : Bool :=
  incl.any (fun pat => hasSlash pat && fnmatch d (firstSegment pat))

/-- A directory subtree: each `cons` is a child directory carrying its
name, the plain files directly inside it, its own subforest, and the
remaining sibling directories.  This is the rose forest walked by
`os.walk`. -/
inductive FSForest : Type where
  | nil : FSForest
  | cons (name : String) (files : List String) (sub : FSForest)
      (rest : FSForest) : FSForest
deriving DecidableEq

/-- The walk of `os.walk` below the root (sync.py:276-308) with the
in-place `dirs` pruning: a child directory is skipped entirely when
`should_skip` holds and no include pattern rescues it; otherwise its
files are tested with `should_include_file` and its subforest is walked.
`pre` is the path from the root to the current directory. -/
def walkForest (excl incl : List String) (pre : List String) :
    FSForest → List (List String)
  | .nil => []
  | .cons d files sub rest =>
    (if dirShouldSkip excl d && !dirRescued incl d then []
     else
       (files.filterMap fun f =>
         if should_include_file excl incl (pre ++ [d, f]) then some (pre ++ [d, f])
         else none)
       ++ walkForest excl incl (pre ++ [d]) sub)
    ++ walkForest excl incl pre rest
  termination_by structural t => t

/-- Model of `ZenS3Sync._scan_directory` (sync.py:272-310) for one root:
the files directly in the root (never pruned; `os.walk` prunes only
subdirectories), then the pruned walk of the subforest.  Returns the
scanned files as paths relative to the root. -/
def scan_directory (excl incl : List String) (rootFiles : List String)
    (forest : FSForest) : List (List String) :=
  (rootFiles.filterMap fun f =>
    if should_include_file excl incl [f] then some [f] else none)
  ++ walkForest excl incl [] forest

/-! ### Data model: file records and remote object records

`_get_file_info` returns either a full stat record or the bare
`{'exists': False}` dict; the latter is modelled as `none`, so that a
field read on it is a `KeyError` (`Except.error`). -/

/-- The stat fields of an existing local file (size, truncated mtime,
content hash — `calculate_file_hash` output, `""` on read failure).
Remote records reuse the same shape with `hash` read from metadata
(`none` when absent). -/
structure FileStat : Type where
  size : Nat
  mtime : Int
  hash : Option String
deriving DecidableEq

/-- A remote object from `_list_s3_objects` (sync.py:161-199): size,
`LastModified` timestamp, hash recovered from user metadata (or `none`),
and the full key including the namespace prefix.  The `etag` field is
carried by the code but never read by the analysis, so it is omitted. -/
structure S3Object : Type where
  size : Nat
  mtime : Int
  hash : Option String
  s3_key : List String
deriving DecidableEq

/-- The comparison fields of a remote object, for `_files_are_different`. -/
def S3Object.toStat (o : S3Object) : FileStat :=
  ⟨o.size, o.mtime, o.hash⟩

/-- A file reference: the path-type string (`"roaming"` or `"local"`,
naming the owning root) together with the path relative to that root.
Stands for the absolute `Path` of the Python code. -/
abbrev FileRef := String × List String

/-- The local filesystem at analysis time: stat results by file.  A file
absent here is one whose `stat()` raises, i.e. `_get_file_info` yields
`{'exists': False}`. -/
abbrev LocalFS := List (FileRef × FileStat)

/-- Association-list lookup (Python `dict` access / `stat`). -/
def lookupFS : LocalFS → FileRef → Option FileStat
  | [], _ => none
  | (k, v) :: rest, f => if k = f then some v else lookupFS rest f

/-- Model of `ZenS3Sync._get_file_info` (sync.py:125-136): the stat
record when the file is readable, `none` (i.e. `{'exists': False}`)
otherwise. -/
def get_file_info (fs : LocalFS) (f : FileRef) : Option FileStat :=
  lookupFS fs f

/-- The remote listing keyed by relative key (prefix stripped), in
listing order, as produced by `_list_s3_objects`. -/
abbrev S3Listing := List (List String × S3Object)

/-- Association-list lookup in the remote listing. -/
def lookupS3 : S3Listing → List String → Option S3Object
  | [], _ => none
  | (k, v) :: rest, key => if k = key then some v else lookupS3 rest key

/-- Truthiness of a hash field: present and a non-empty string. -/
def hashTruthy : Option String → Bool
  | some h => !(h == "")
  | none => false

/-- Model of `ZenS3Sync._files_are_different` (sync.py:138-159): a
missing side forces `different`; with both hashes truthy the hashes
decide; otherwise the sizes decide. -/
def files_are_different : Option FileStat → Option FileStat → Bool
  | none, _ => true
  | _, none => true
  | some l, some s =>
    if hashTruthy l.hash && hashTruthy s.hash then !(l.hash == s.hash)
    else !(l.size == s.size)

/-! ### Namespace mapper -/

/-- Model of `ZenS3Sync._get_relative_s3_key` (sync.py:110-114): the
path-type segment is prepended for the `roaming`/`local` roles; any
other path-type yields the bare relative path. -/
def get_relative_s3_key (pathType : String) (p : List String) : List String :=
  if pathType = "roaming" ∨ pathType = "local" then pathType :: p else p

/-- Model of `ZenS3Sync._get_s3_key` (sync.py:104-108): the namespace
prefix (as segments) followed by the role-tagged relative path. -/
def get_s3_key (pfx : List String) (pathType : String) (p : List String) :
    List String :=
  pfx ++ get_relative_s3_key pathType p

/-- Which local root a downloaded object lands under. -/
inductive RootId : Type where
  | roaming : RootId
  | localRoot : RootId
deriving DecidableEq

/-- The path-type string naming a root (the key space of `LocalFS`). -/
def rootPathType : RootId → String
  | .roaming => "roaming"
  | .localRoot => "local"

/-- Model of `ZenS3Sync._get_download_path` (sync.py:116-123) on
relative keys rendered as segment lists: a leading `roaming/` (i.e. a
first segment `"roaming"` followed by at least one more) maps under the
roaming root; a leading `local/` maps under the local root only when
cache sync is enabled; anything else maps directly under the roaming
root.  Both roots are assumed configured (the code returns `None` for an
unconfigured root). -/
def get_download_path (syncCacheData : Bool) (k : List String) :
    Option (RootId × List String) :=
  match k with
  | a :: r :: rest =>
    if a = "roaming" then some (.roaming, r :: rest)
    else if a = "local" then
      (if syncCacheData then some (.localRoot, r :: rest) else none)
    else some (.roaming, k)
  | _ => some (.roaming, k)

/-! ### Local listing -/

/-- Model of `ZenS3Sync.get_local_files` (sync.py:251-270): the filtered
scan of the roaming root, then — when cache sync is enabled — of the
local root.  Each file is tagged with its path-type.  Both roots are
taken as present; a missing roaming root makes the code return the
empty listing, which this model reaches with an empty tree. -/
def get_local_files (excl incl : List String)
    (roamingFiles : List String) (roamingForest : FSForest)
    (syncCacheData : Bool)
    (localFiles : List String) (localForest : FSForest) : List FileRef :=
  (scan_directory excl incl roamingFiles roamingForest).map
    (fun p => (("roaming" : String), p))
  ++ (if syncCacheData then
        (scan_directory excl incl localFiles localForest).map
          (fun p => (("local" : String), p))
      else [])

/-! ### Push analysis -/

/-- Reading `info['size']` on a `_get_file_info` result: a `KeyError`
when the record is `{'exists': False}`. -/
def getSize : Option FileStat → Except String Nat
  | some st => .ok st.size
  | none => .error "KeyError: size"

/-- Reading `info['mtime']` on a `_get_file_info` result. -/
def getMtime : Option FileStat → Except String Int
  | some st => .ok st.mtime
  | none => .error "KeyError: mtime"

/-- An entry of `files_to_upload`: `(file_path, s3_key, size, path_type)`. -/
abbrev UploadItem := FileRef × List String × Nat × String

/-- An entry of `files_to_skip`: `(file_path, s3_key, size)`. -/
abbrev SkipItem := FileRef × List String × Nat

/-- An entry of push-mode `files_to_delete`:
`(relative_key, s3_key, size)`. -/
abbrev DeleteItem := List String × List String × Nat

/-- The skip test of the `_analyze_upload_files` loop (sync.py:353-357):
in incremental mode, the file's relative key is listed remotely and the
comparator judges the two records identical. -/
def uploadSkipTest (fs : LocalFS) (s3 : S3Listing) (incremental : Bool)
    (f : FileRef) : Bool :=
  match (if incremental then lookupS3 s3 (get_relative_s3_key f.1 f.2)
         else none) with
  | some s3Info =>
    !(files_are_different (get_file_info fs f) (some s3Info.toStat))
  | none => false

/-- The per-file loop of `_analyze_upload_files` (sync.py:348-359): a
file passing the skip test is skipped; every other file is queued for
upload.  Both branches read `local_info['size']`, so a vanished file
raises. -/
def analyzeUploadLoop (pfx : List String) (fs : LocalFS) (s3 : S3Listing)
    (incremental : Bool) :
    List FileRef → Except String (List UploadItem × List SkipItem)
  | [] => .ok ([], [])
  | (pt, p) :: rest =>
    match getSize (get_file_info fs (pt, p)) with
    | .error e => .error e
    | .ok n =>
      match analyzeUploadLoop pfx fs s3 incremental rest with
      | .error e => .error e
      | .ok (ups, skips) =>
        if uploadSkipTest fs s3 incremental (pt, p) then
          .ok (ups, ((pt, p), get_s3_key pfx pt p, n) :: skips)
        else .ok (((pt, p), get_s3_key pfx pt p, n, pt) :: ups, skips)

/-- The cleanup loop of `_analyze_upload_files` (sync.py:361-366): every
remote object whose relative key is absent from the relative-key set of
the scanned local files is queued for remote deletion. -/
def cleanupDeletes (files : List FileRef) (s3 : S3Listing) : List DeleteItem :=
  let localKeys := files.map (fun f => get_relative_s3_key f.1 f.2)
  s3.filterMap (fun x =>
    if x.1 ∈ localKeys then none else some (x.1, x.2.s3_key, x.2.size))

/-- Model of `ZenS3Sync._analyze_upload_files` (sync.py:341-368). -/
def analyze_upload_files (pfx : List String) (fs : LocalFS)
    (files : List FileRef) (s3 : S3Listing) (incremental cleanup : Bool) :
    Except String (List UploadItem × List SkipItem × List DeleteItem) :=
  match analyzeUploadLoop pfx fs s3 incremental files with
  | .error e => .error e
  | .ok (ups, skips) =>
    .ok (ups, skips, if cleanup then cleanupDeletes files s3 else [])

/-- Model of `ZenS3Sync.upload_to_s3` (sync.py:312-339), returning the
success flag together with the warnings it logs.  An empty local listing
warns and returns `False` immediately.  The executor part is embedded
without I/O faults, so `_process_files` reports success; a `KeyError`
escaping the analysis propagates out of the call (there is no handler in
`upload_to_s3`). -/
def upload_to_s3 (excl incl : List String) (pfx : List String) (fs : LocalFS)
    (roamingFiles : List String) (roamingForest : FSForest)
    (syncCacheData : Bool)
    (localFiles : List String) (localForest : FSForest)
    (s3 : S3Listing) (_dryRun incremental cleanup : Bool) :
    Except String (Bool × List String) :=
  let files := get_local_files excl incl roamingFiles roamingForest
    syncCacheData localFiles localForest
  if files.isEmpty then .ok (false, ["No files found to upload"])
  else
    let s3Objects := if incremental || cleanup then s3 else []
    match analyze_upload_files pfx fs files s3Objects incremental cleanup with
    | .error e => .error e
    | .ok (ups, _skips, dels) =>
      if ups.isEmpty && dels.isEmpty then .ok (true, []) else .ok (true, [])

/-! ### Pull analysis -/

/-- An entry of `files_to_download`:
`(local_path, s3_key, size, relative_key)`. -/
abbrev DownloadItem := FileRef × List String × Nat × List String

/-- An entry of pull-mode `files_to_delete`:
`(file_path, relative_key, size)`. -/
abbrev LocalDeleteItem := FileRef × List String × Nat

/-- Model of `ZenS3Sync._analyze_download_files` (sync.py:401-433): per
remote object, map the relative key to a local path (objects with no
mapping are ignored); in incremental mode an existing, identical local
file is skipped, everything else is downloaded.  With cleanup, every
scanned local file whose relative key is not listed remotely and which
still exists is queued for local deletion. -/
def analyze_download_files (syncCacheData : Bool) (fs : LocalFS)
    (localScan : List FileRef) (s3 : S3Listing)
    (incremental cleanup : Bool) :
    List DownloadItem × List SkipItem × List LocalDeleteItem :=
  let downloadsSkips := s3.foldr (fun (relKey, o) acc =>
    match get_download_path syncCacheData relKey with
    | none => acc
    | some (root, rel) =>
      let localRef : FileRef := (rootPathType root, rel)
      let localInfo := get_file_info fs localRef
      if incremental && localInfo.isSome then
        if files_are_different localInfo (some o.toStat) = false then
          (acc.1, (localRef, o.s3_key, o.size) :: acc.2)
        else ((localRef, o.s3_key, o.size, relKey) :: acc.1, acc.2)
      else ((localRef, o.s3_key, o.size, relKey) :: acc.1, acc.2)) ([], [])
  let dels := if cleanup then
      let s3Keys := s3.map Prod.fst
      localScan.filterMap (fun f =>
        let relKey := get_relative_s3_key f.1 f.2
        if relKey ∈ s3Keys then none
        else match get_file_info fs f with
          | some st => some (f, relKey, st.size)
          | none => none)
    else []
  (downloadsSkips.1, downloadsSkips.2, dels)

/-- Model of `ZenS3Sync.download_from_s3` (sync.py:370-399): an empty
remote listing warns and returns `False`; the surrounding
`try`/`except` turns any analysis exception into `False` as well.  As
with uploads, executed transfers are embedded without I/O faults. -/
def download_from_s3 (excl incl : List String) (syncCacheData : Bool)
    (fs : LocalFS)
    (roamingFiles : List String) (roamingForest : FSForest)
    (localFiles : List String) (localForest : FSForest)
    (s3 : S3Listing) (_dryRun incremental cleanup : Bool) :
    Bool × List String :=
  if s3.isEmpty then
    (false, ["No objects found in S3"])
  else
    let localScan := if cleanup then
        get_local_files excl incl roamingFiles roamingForest
          syncCacheData localFiles localForest
      else []
    let (downs, _skips, dels) :=
      analyze_download_files syncCacheData fs localScan s3 incremental cleanup
    if downs.isEmpty && dels.isEmpty then (true, [])
    else (true, [])

/-! ### Bidirectional analysis -/

/-- A value of the relative-key-indexed local map built by
`sync_bidirectional` (sync.py:442-449): the file path, its
`_get_file_info` record, and its path-type. -/
structure LocalEntry : Type where
  path : FileRef
  info : Option FileStat
  pathType : String
deriving DecidableEq

/-- The local lookup of `sync_bidirectional`: one entry per scanned
file, keyed by relative key. -/
def buildLocalLookup (fs : LocalFS) (files : List FileRef) :
    List (List String × LocalEntry) :=
  files.map (fun f =>
    (get_relative_s3_key f.1 f.2, ⟨f, get_file_info fs f, f.1⟩))

/-- Association-list lookup in the local map. -/
def lookupEntry : List (List String × LocalEntry) → List String →
    Option LocalEntry
  | [], _ => none
  | (k, v) :: rest, key => if k = key then some v else lookupEntry rest key

/-- A bidirectional skip entry: `(relative_key, None, size)`. -/
abbrev BidiSkipItem := List String × Option (List String) × Nat

/-- The loop of `_analyze_bidirectional_sync` over keys present on both
sides (sync.py:470-486): identical records are skipped; different
records go to upload when the local mtime is strictly greater than the
remote one and to download otherwise.  The mtime read raises on a
vanished local file. -/
def bothSidesLoop (lookup : List (List String × LocalEntry))
    (s3 : S3Listing) :
    List (List String) →
    Except String (List UploadItem × List DownloadItem × List BidiSkipItem)
  | [] => .ok ([], [], [])
  | k :: rest =>
    match lookupEntry lookup k, lookupS3 s3 k with
    | some le, some o =>
      if files_are_different le.info (some o.toStat) = false then
        match getSize le.info with
        | .error e => .error e
        | .ok n =>
          match bothSidesLoop lookup s3 rest with
          | .error e => .error e
          | .ok (u, d, s) => .ok (u, d, (k, none, n) :: s)
      else
        match getMtime le.info with
        | .error e => .error e
        | .ok m =>
          if o.mtime < m then
            match getSize le.info with
            | .error e => .error e
            | .ok n =>
              match bothSidesLoop lookup s3 rest with
              | .error e => .error e
              | .ok (u, d, s) =>
                .ok ((le.path, o.s3_key, n, le.pathType) :: u, d, s)
          else
            match bothSidesLoop lookup s3 rest with
            | .error e => .error e
            | .ok (u, d, s) =>
              .ok (u, (le.path, o.s3_key, o.size, k) :: d, s)
    | _, _ => .error "KeyError: map entry"

/-- The loop of `_analyze_bidirectional_sync` over keys present only
locally (sync.py:488-495): every such file is uploaded; the size read
raises on a vanished local file. -/
def localOnlyLoop (pfx : List String)
    (lookup : List (List String × LocalEntry)) :
    List (List String) → Except String (List UploadItem)
  | [] => .ok []
  | k :: rest =>
    match lookupEntry lookup k with
    | some le =>
      match getSize le.info with
      | .error e => .error e
      | .ok n =>
        match localOnlyLoop pfx lookup rest with
        | .error e => .error e
        | .ok u =>
          .ok ((le.path, get_s3_key pfx le.pathType le.path.2, n, le.pathType)
            :: u)
    | none => .error "KeyError: map entry"

/-- The loop of `_analyze_bidirectional_sync` over keys present only
remotely (sync.py:497-501): objects with a valid download mapping are
downloaded.  The keys are drawn from the remote listing, so the lookup
cannot miss. -/
def s3OnlyLoop (syncCacheData : Bool) (s3 : S3Listing) :
    List (List String) → List DownloadItem
  | [] => []
  | k :: rest =>
    (match lookupS3 s3 k with
     | some o =>
       match get_download_path syncCacheData k with
       | some (root, rel) =>
         [((rootPathType root, rel), o.s3_key, o.size, k)]
       | none => []
     | none => []) ++ s3OnlyLoop syncCacheData s3 rest

/-- Model of `ZenS3Sync._analyze_bidirectional_sync` (sync.py:465-503).
The Python sets `keys & keys`, `keys - keys` are iterated here in the
deterministic order of the underlying listings; all stated properties
are membership properties, insensitive to that order. -/
def analyze_bidirectional_sync (pfx : List String)
    (syncCacheData : Bool) (lookup : List (List String × LocalEntry))
    (s3 : S3Listing) :
    Except String
      (List UploadItem × List DownloadItem × List BidiSkipItem) :=
  let lookupKeys := lookup.map Prod.fst
  let s3Keys := s3.map Prod.fst
  match bothSidesLoop lookup s3 (lookupKeys.filter (fun k => k ∈ s3Keys)) with
  | .error e => .error e
  | .ok (u1, d1, s1) =>
    match localOnlyLoop pfx lookup
        (lookupKeys.filter (fun k => ¬ k ∈ s3Keys)) with
    | .error e => .error e
    | .ok u2 =>
      let d3 := s3OnlyLoop syncCacheData s3
        (s3Keys.filter (fun k => ¬ k ∈ lookupKeys))
      .ok (u1 ++ u2, d1 ++ d3, s1)

/-- One action applied by an executor (`_process_files` target). -/
inductive SyncAction : Type where
  | uploadA (item : UploadItem) : SyncAction
  | downloadA (item : DownloadItem) : SyncAction
  | deleteRemoteA (item : DeleteItem) : SyncAction
  | deleteLocalA (item : LocalDeleteItem) : SyncAction
deriving DecidableEq

/-- Is the action a deletion (of either side)? -/
def SyncAction.isDeletion : SyncAction → Bool
  | .uploadA _ => false
  | .downloadA _ => false
  | .deleteRemoteA _ => true
  | .deleteLocalA _ => true

/-- Model of `ZenS3Sync.sync_bidirectional` (sync.py:435-463) as the
sequence of actions it hands to `_process_files`: the analyzed uploads,
then the analyzed downloads.  The `cleanup` argument is accepted (as in
the code) and the `dryRun` argument only suppresses execution, not the
decided action list. -/
def sync_bidirectional_actions (pfx : List String)
    (excl incl : List String) (fs : LocalFS)
    (roamingFiles : List String) (roamingForest : FSForest)
    (syncCacheData : Bool)
    (localFiles : List String) (localForest : FSForest)
    (s3 : S3Listing) (_dryRun _cleanup : Bool) :
    Except String (List SyncAction) :=
  let files := get_local_files excl incl roamingFiles roamingForest
    syncCacheData localFiles localForest
  let lookup := buildLocalLookup fs files
  match analyze_bidirectional_sync pfx syncCacheData lookup s3 with
  | .error e => .error e
  | .ok (ups, downs, _skips) =>
    .ok (ups.map .uploadA ++ downs.map .downloadA)

/-- The action list of a computed result (empty on an escaped
exception). -/
def actionsOf : Except String (List SyncAction) → List SyncAction
  | .ok acts => acts
  | .error _ => []

/-! ### Effect of a successful push on the remote listing

`_upload_file` (sync.py:521-562) writes the file bytes and, with
metadata enabled, records the content hash; the next `_list_s3_objects`
therefore reports the uploaded object with the file's size, the file's
hash, and a store-assigned `LastModified` time. -/

/-- Replace (or append) the record at a relative key. -/
def updateS3 : S3Listing → List String → S3Object → S3Listing
  | [], k, o => [(k, o)]
  | (k', v) :: rest, k, o =>
    if k' = k then (k, o) :: rest else (k', v) :: updateS3 rest k o

/-- Apply one queued upload: on success the remote listing afterwards
carries the local file's size and hash at the object's relative key
(the full key with the namespace prefix stripped).  A file that
vanished before the transfer fails its individual upload and leaves the
listing unchanged (`_process_files` catches per-file errors). -/
def applyUpload (fs : LocalFS) (uploadTime : Int) (pfx : List String)
    (s3 : S3Listing) (item : UploadItem) : S3Listing :=
  match get_file_info fs item.1 with
  | some st =>
    updateS3 s3 (item.2.1.drop pfx.length)
      ⟨st.size, uploadTime, st.hash, item.2.1⟩
  | none => s3

/-- The remote listing after a successful push run applied its upload
queue in order. -/
def applyUploads (fs : LocalFS) (uploadTime : Int) (pfx : List String)
    (ups : List UploadItem) (s3 : S3Listing) : S3Listing :=
  ups.foldl (applyUpload fs uploadTime pfx) s3

/-! ### Per-item views of the analysis loops

For each scanned file (push) or relative key (bidirectional), these
functions state the item the corresponding loop emits; the
characterization lemmas below prove each loop equal to a `filterMap`
over them.  They are proof devices, not translations of further
source code. -/

/-- The upload item the push loop emits for one scanned file. -/
def uploadItemFor (pfx : List String) (fs : LocalFS) (s3 : S3Listing)
    (inc : Bool) (f : FileRef) : Option UploadItem :=
  match get_file_info fs f with
  | some st =>
    if uploadSkipTest fs s3 inc f then none
    else some (f, get_s3_key pfx f.1 f.2, st.size, f.1)
  | none => none

/-- The skip item the push loop emits for one scanned file. -/
def skipItemFor (pfx : List String) (fs : LocalFS) (s3 : S3Listing)
    (inc : Bool) (f : FileRef) : Option SkipItem :=
  match get_file_info fs f with
  | some st =>
    if uploadSkipTest fs s3 inc f then
      some (f, get_s3_key pfx f.1 f.2, st.size)
    else none
  | none => none

/-- The upload item the both-sides bidirectional loop emits for one
relative key. -/
def bothUploadFor (lookup : List (List String × LocalEntry))
    (s3 : S3Listing) (k : List String) : Option UploadItem :=
  match lookupEntry lookup k, lookupS3 s3 k with
  | some le, some o =>
    match le.info with
    | some st =>
      if files_are_different le.info (some o.toStat) = false then none
      else if o.mtime < st.mtime then
        some (le.path, o.s3_key, st.size, le.pathType)
      else none
    | none => none
  | _, _ => none

/-- The download item the both-sides bidirectional loop emits for one
relative key. -/
def bothDownloadFor (lookup : List (List String × LocalEntry))
    (s3 : S3Listing) (k : List String) : Option DownloadItem :=
  match lookupEntry lookup k, lookupS3 s3 k with
  | some le, some o =>
    match le.info with
    | some st =>
      if files_are_different le.info (some o.toStat) = false then none
      else if o.mtime < st.mtime then none
      else some (le.path, o.s3_key, o.size, k)
    | none => none
  | _, _ => none

/-- The skip item the both-sides bidirectional loop emits for one
relative key. -/
def bothSkipFor (lookup : List (List String × LocalEntry))
    (s3 : S3Listing) (k : List String) : Option BidiSkipItem :=
  match lookupEntry lookup k, lookupS3 s3 k with
  | some le, some o =>
    match le.info with
    | some st =>
      if files_are_different le.info (some o.toStat) = false then
        some (k, none, st.size)
      else none
    | none => none
  | _, _ => none

/-- The upload item the local-only bidirectional loop emits for one
relative key. -/
def localOnlyFor (pfx : List String)
    (lookup : List (List String × LocalEntry)) (k : List String) :
    Option UploadItem :=
  match lookupEntry lookup k with
  | some le =>
    match le.info with
    | some st =>
      some (le.path, get_s3_key pfx le.pathType le.path.2, st.size,
        le.pathType)
    | none => none
  | none => none

/-- The download item the remote-only bidirectional loop emits for one
relative key. -/
def s3OnlyFor (syncCacheData : Bool) (s3 : S3Listing) (k : List String) :
    Option DownloadItem :=
  match lookupS3 s3 k with
  | some o =>
    match get_download_path syncCacheData k with
    | some (root, rel) =>
      some ((rootPathType root, rel), o.s3_key, o.size, k)
    | none => none
  | none => none

/-! ## Reference definitions transcribed from the specification text

These two definitions follow the spec's words, to be compared with the
definitions above that follow the code. -/

/-- The file classifier as the spec describes it: a path whose rendered
relative path or bare name matches any exclude glob is rejected, even
when an include glob also matches; any other path is kept, whether or
not an include glob matches. -/
def includeFileSpec (excl : List String) (p : List String) : Bool :=
  if excl.any (matchesPattern p) then false else true

/-- The identity comparator as the spec describes it: a missing side is
`different`; two non-empty content hashes decide by hash equality,
regardless of the size and mtime fields; otherwise the sizes decide. -/
def areDifferentSpec (l s : Option FileStat) : Bool :=
  match l, s with
  | some li, some si =>
    match li.hash, si.hash with
    | some lh, some sh =>
      if lh ≠ "" ∧ sh ≠ "" then decide (lh ≠ sh)
      else decide (li.size ≠ si.size)
    | _, _ => decide (li.size ≠ si.size)
  | _, _ => true

/-! ## Claim C7 -/

/-- C7: `should_include_file` equals the reference classifier for every
pattern configuration and every path — an exclude match refuses the file
even when an include glob also matches (exclude dominance), and a path
matching no exclude pattern is kept whether or not an include glob
matches (default-include). -/
theorem should_include_file_eq_spec (excl incl : List String)
    (p : List String) :
    should_include_file excl incl p = includeFileSpec excl p := by
  by_cases h : excl.any (matchesPattern p) = true
  · simp [should_include_file, includeFileSpec, h]
  · simp [should_include_file, includeFileSpec, h]

/-! ## Claim C5 -/

/-- C5: `_files_are_different` equals the reference comparator on every
pair of records: a missing side forces `different`; two non-empty hashes
decide by hash inequality regardless of the size and mtime fields;
otherwise the sizes decide, with equal sizes judged identical. -/
theorem files_are_different_eq_spec (l s : Option FileStat) :
    files_are_different l s = areDifferentSpec l s := by
  have hnat : ∀ a b : Nat, (a == b) = decide (a = b) := by
    intro a b
    by_cases h : a = b <;> simp [h]
  have hstr : ∀ a b : String, (a == b) = decide (a = b) := by
    intro a b
    by_cases h : a = b <;> simp [h]
  rcases l with _ | ⟨lsz, lmt, lh⟩
  · rcases s with _ | si <;> rfl
  rcases s with _ | ⟨ssz, smt, sh⟩
  · rfl
  rcases lh with _ | lh <;> rcases sh with _ | sh
  · simp [files_are_different, areDifferentSpec, hashTruthy, hnat]
  · simp [files_are_different, areDifferentSpec, hashTruthy, hnat]
  · simp [files_are_different, areDifferentSpec, hashTruthy, hnat]
  · by_cases h1 : lh = "" <;> by_cases h2 : sh = "" <;>
      simp [files_are_different, areDifferentSpec, hashTruthy, hnat, hstr,
        h1, h2]

/-! ## Claim C4 -/

/-- C4: the namespace mapping is a two-sided inverse on role-tagged
paths — stripping the configured prefix from `_get_s3_key` and applying
`_get_download_path` returns the original root and relative path, for
the roaming role always and for the local role when cache sync is
enabled; and any relative key whose leading segment opens neither a
`roaming/` nor a `local/` prefix maps directly under the roaming root. -/
theorem mapping_roundtrip (pfx : List String) (syncCacheData : Bool)
    (p : List String) (hp : p ≠ []) :
    get_download_path syncCacheData
        ((get_s3_key pfx "roaming" p).drop pfx.length) = some (.roaming, p)
    ∧ get_download_path true
        ((get_s3_key pfx "local" p).drop pfx.length) = some (.localRoot, p)
    ∧ ∀ k : List String, k.head? ≠ some "roaming" → k.head? ≠ some "local" →
        get_download_path syncCacheData k = some (.roaming, k) := by
  have hdrop : ∀ pt : String,
      (get_s3_key pfx pt p).drop pfx.length = get_relative_s3_key pt p := by
    intro pt
    unfold get_s3_key
    exact List.drop_left _ _
  rcases p with _ | ⟨a, as⟩
  · exact absurd rfl hp
  refine ⟨?_, ?_, ?_⟩
  · rw [hdrop]
    simp [get_relative_s3_key, get_download_path]
  · rw [hdrop]
    simp [get_relative_s3_key, get_download_path]
  · intro k h1 h2
    match k with
    | [] => rfl
    | [a] => rfl
    | a :: b :: bs =>
      have ha1 : a ≠ "roaming" := by
        intro h
        exact h1 (by simp [h])
      have ha2 : a ≠ "local" := by
        intro h
        exact h2 (by simp [h])
      simp [get_download_path, ha1, ha2]

/-- Witness for C4 at a concrete role-tagged path. -/
theorem mapping_roundtrip_witness :
    get_download_path false
        ((get_s3_key ["zen-profiles"] "roaming" ["prefs.js"]).drop
          (["zen-profiles"] : List String).length)
      = some (.roaming, ["prefs.js"]) :=
  (mapping_roundtrip ["zen-profiles"] false ["prefs.js"] (by decide)).1

/-! ## Claim C8 -/

/-- C8: the `cleanup` parameter of bidirectional mode is inert — the
action sequence computed with `cleanup` on equals the one computed with
it off, and no bidirectional action is a deletion of either side. -/
theorem bidirectional_cleanup_inert (pfx excl incl : List String)
    (fs : LocalFS) (rf : List String) (rF : FSForest) (sc : Bool)
    (lf : List String) (lF : FSForest) (s3 : S3Listing)
    (dryRun cleanup : Bool) :
    sync_bidirectional_actions pfx excl incl fs rf rF sc lf lF s3
        dryRun cleanup
      = sync_bidirectional_actions pfx excl incl fs rf rF sc lf lF s3
        dryRun false
    ∧ (actionsOf (sync_bidirectional_actions pfx excl incl fs rf rF sc lf lF
        s3 dryRun cleanup)).all (fun a => !a.isDeletion) = true := by
  refine ⟨rfl, ?_⟩
  simp only [sync_bidirectional_actions]
  rcases h : analyze_bidirectional_sync pfx sc
      (buildLocalLookup fs (get_local_files excl incl rf rF sc lf lF)) s3
    with e | ⟨ups, downs, skips⟩
  · rfl
  · simp only [actionsOf, List.all_append, List.all_map, List.all_eq_true,
      Function.comp, Bool.and_eq_true]
    constructor
    · intro x hx
      rcases List.mem_map.mp hx with ⟨i, _, rfl⟩
      rfl
    · intro x hx
      rcases List.mem_map.mp hx with ⟨i, _, rfl⟩
      rfl

/-! ## Claim C1

The subtree pruning of `_scan_directory` is not conservative.  A
directory is pruned whenever its name matches the *first segment* of any
slash-containing exclude pattern, even when the pattern's remainder only
excludes part of that subtree.  With the exclude pattern
`cache2/settings.json`, the file `cache2/keep.txt` matches no exclude
pattern, so `should_include_file` keeps it — yet the walk prunes the
whole `cache2` directory and never returns the file. -/

/-- C1: at the failing input — exclude patterns `[cache2/settings.json]`,
no include patterns, a root containing the directory `cache2` with the
single file `keep.txt` — the file-level test keeps `cache2/keep.txt`,
but the pruned scan returns no files at all. -/
theorem scan_prunes_included_file :
    should_include_file ["cache2/settings.json"] [] ["cache2", "keep.txt"]
        = true
    ∧ scan_directory ["cache2/settings.json"] [] []
        (FSForest.cons "cache2" ["keep.txt"] .nil .nil) = [] := by
  constructor
  · decide
  · decide

/-! ## Claim C3

An empty filtered local listing makes `upload_to_s3` log a warning and
`return False` (sync.py:315-317); an empty remote listing makes
`download_from_s3` log a warning and `return False` (sync.py:376-378).
The CLI maps `False` to exit status 1 (cli.py:228,238), so this is the
failure outcome, not success as the claim states. -/

/-- C3 counterexample: with no local files at all, push returns the
failure flag `false` (with its warning); with an empty remote listing,
pull returns `false` as well — not the success outcome the claim
asserts. -/
theorem empty_listing_cex :
    get_local_files [] [] [] .nil false [] .nil = []
    ∧ upload_to_s3 [] [] ["zen-profiles"] [] [] .nil false [] .nil []
        false true false = .ok (false, ["No files found to upload"])
    ∧ download_from_s3 [] [] false [] [] .nil [] .nil []
        false true false = (false, ["No objects found in S3"]) := by
  refine ⟨rfl, rfl, rfl⟩

/-- C3 amended: a push whose filtered local listing is empty, and a pull
whose remote listing is empty, complete as no-ops that log a warning but
return the *failure* flag (`False`, mapped by the CLI to a non-zero
exit), not success. -/
theorem empty_listing_warns_and_fails (excl incl pfx : List String)
    (fs : LocalFS) (rf : List String) (rF : FSForest) (sc : Bool)
    (lf : List String) (lF : FSForest) (s3 : S3Listing)
    (dryRun incremental cleanup : Bool) :
    (get_local_files excl incl rf rF sc lf lF = [] →
      upload_to_s3 excl incl pfx fs rf rF sc lf lF s3
          dryRun incremental cleanup
        = .ok (false, ["No files found to upload"]))
    ∧ (s3 = [] →
      download_from_s3 excl incl sc fs rf rF lf lF s3
          dryRun incremental cleanup
        = (false, ["No objects found in S3"])) := by
  constructor
  · intro h
    simp [upload_to_s3, h]
  · intro h
    simp [download_from_s3, h]

/-- Witness for the amended C3 theorem at a concrete configuration. -/
theorem empty_listing_warns_and_fails_witness :
    upload_to_s3 ["a"] [] ["zen-profiles"] [] [] .nil false [] .nil []
        false true true = .ok (false, ["No files found to upload"])
    ∧ download_from_s3 ["a"] [] false [] ["f.txt"] .nil [] .nil []
        false true false = (false, ["No objects found in S3"]) :=
  ⟨(empty_listing_warns_and_fails ["a"] [] ["zen-profiles"] [] [] .nil
      false [] .nil [] false true true).1 rfl,
   (empty_listing_warns_and_fails ["a"] [] ["zen-profiles"] [] ["f.txt"] .nil
      false [] .nil [] false true false).2 rfl⟩

/-! ## Scan soundness

Every file the (pruned, filtered) scan returns passes the file-level
classifier.  This is the direction of the pruning optimization that does
hold; the converse fails (claim C1). -/

/-- Files returned by the pruned walk pass `should_include_file`. -/
theorem mem_walkForest_included (excl incl : List String) (t : FSForest) :
    ∀ pre q, q ∈ walkForest excl incl pre t →
      should_include_file excl incl q = true := by
  induction t with
  | nil =>
    intro pre q h
    simp [walkForest] at h
  | cons d files sub rest ihsub ihrest =>
    intro pre q h
    rw [walkForest] at h
    rcases List.mem_append.mp h with h | h
    · by_cases hskip : (dirShouldSkip excl d && !dirRescued incl d) = true
      · rw [if_pos hskip] at h
        simp at h
      · rw [if_neg hskip] at h
        rcases List.mem_append.mp h with h | h
        · rcases List.mem_filterMap.mp h with ⟨f, hf, heq⟩
          by_cases hi : should_include_file excl incl (pre ++ [d, f]) = true
          · rw [if_pos hi] at heq
            cases heq
            exact hi
          · rw [if_neg hi] at heq
            cases heq
        · exact ihsub _ _ h
    · exact ihrest _ _ h

/-- Files returned by `_scan_directory` pass `should_include_file`. -/
theorem mem_scan_included (excl incl rootFiles : List String) (t : FSForest)
    (q : List String) (h : q ∈ scan_directory excl incl rootFiles t) :
    should_include_file excl incl q = true := by
  rw [scan_directory] at h
  rcases List.mem_append.mp h with h | h
  · rcases List.mem_filterMap.mp h with ⟨f, hf, heq⟩
    by_cases hi : should_include_file excl incl [f] = true
    · rw [if_pos hi] at heq
      cases heq
      exact hi
    · rw [if_neg hi] at heq
      cases heq
  · exact mem_walkForest_included excl incl t [] q h

/-! ## Claim C2

Push-mode cleanup compares the remote relative-key set against the keys
of the *filtered* local scan (sync.py:361-366).  A local file that
exists on disk but is excluded by the patterns never enters that scan,
so its remote counterpart is queued for deletion — contrary to the
claim.  The spec itself records this in §9 (open question C). -/

/-- C2 counterexample: exclude pattern `cache2/*`, local disk holding
`roaming/prefs.js` and `roaming/cache2/data.db`, remote holding
`roaming/cache2/data.db`.  The local counterpart exists on disk and is
excluded by the patterns, yet push cleanup queues the remote object for
deletion. -/
theorem cleanup_deletes_excluded_cex :
    get_file_info
        [(("roaming", ["prefs.js"]), ⟨100, 10, some "h1"⟩),
         (("roaming", ["cache2", "data.db"]), ⟨200, 10, some "h2"⟩)]
        ("roaming", ["cache2", "data.db"]) = some ⟨200, 10, some "h2"⟩
    ∧ should_include_file ["cache2/*"] [] ["cache2", "data.db"] = false
    ∧ analyze_upload_files ["zen-profiles"]
        [(("roaming", ["prefs.js"]), ⟨100, 10, some "h1"⟩),
         (("roaming", ["cache2", "data.db"]), ⟨200, 10, some "h2"⟩)]
        (get_local_files ["cache2/*"] [] ["prefs.js"]
          (FSForest.cons "cache2" ["data.db"] .nil .nil) false [] .nil)
        [(["roaming", "cache2", "data.db"],
          ⟨200, 5, some "h2", ["zen-profiles", "roaming", "cache2", "data.db"]⟩)]
        true true
      = .ok ([(("roaming", ["prefs.js"]), ["zen-profiles", "roaming", "prefs.js"],
                100, "roaming")],
             [],
             [(["roaming", "cache2", "data.db"],
               ["zen-profiles", "roaming", "cache2", "data.db"], 200)]) := by
  refine ⟨rfl, by decide, rfl⟩

/-- C2 amended: push-mode cleanup gates deletion only by absence of the
relative key from the filtered local scan, so a remote object whose
local counterpart exists on disk but is excluded by the exclude patterns
(with no rescuing include) *is* queued for deletion. -/
theorem cleanup_deletes_filtered_counterpart
    (excl incl pfx : List String) (fs : LocalFS) (rf : List String)
    (rF : FSForest) (sc : Bool) (lf : List String) (lF : FSForest)
    (s3 : S3Listing) (inc : Bool)
    (u : List UploadItem) (s : List SkipItem) (d : List DeleteItem)
    (p : List String) (o : S3Object) (st : FileStat)
    (hok : analyze_upload_files pfx fs
        (get_local_files excl incl rf rF sc lf lF) s3 inc true
        = .ok (u, s, d))
    (hmem : ("roaming" :: p, o) ∈ s3)
    (hfs : get_file_info fs ("roaming", p) = some st)
    (hexcl : should_include_file excl incl p = false) :
    ("roaming" :: p, o.s3_key, o.size) ∈ d := by
  have hd : d = cleanupDeletes (get_local_files excl incl rf rF sc lf lF) s3 := by
    unfold analyze_upload_files at hok
    rcases hres : analyzeUploadLoop pfx fs s3 inc
        (get_local_files excl incl rf rF sc lf lF) with e | ⟨u', s'⟩ <;>
      rw [hres] at hok
    · cases hok
    · simp at hok
      exact hok.2.2.symm
  subst hd
  unfold cleanupDeletes
  apply List.mem_filterMap.mpr
  refine ⟨("roaming" :: p, o), hmem, ?_⟩
  have hnotin : ¬ ("roaming" :: p) ∈
      (get_local_files excl incl rf rF sc lf lF).map
        (fun f => get_relative_s3_key f.1 f.2) := by
    intro hmemk
    rcases List.mem_map.mp hmemk with ⟨f, hf, hkey⟩
    unfold get_local_files at hf
    rcases List.mem_append.mp hf with hf | hf
    · rcases List.mem_map.mp hf with ⟨q, hq, rfl⟩
      have hqp : ("roaming" : String) :: q = "roaming" :: p := by
        simpa [get_relative_s3_key] using hkey
      have hq2 : q = p := by
        injection hqp
      subst hq2
      have := mem_scan_included excl incl rf rF q hq
      rw [this] at hexcl
      cases hexcl
    · by_cases hsc : sc = true
      · rw [if_pos hsc] at hf
        rcases List.mem_map.mp hf with ⟨q, hq, rfl⟩
        simp [get_relative_s3_key] at hkey
      · rw [if_neg hsc] at hf
        simp at hf
  simp [hnotin]

/-- Witness for the amended C2 theorem at the concrete input of the
counterexample scenario. -/
theorem cleanup_deletes_filtered_counterpart_witness :
    (["roaming", "cache2", "data.db"],
      (["zen-profiles", "roaming", "cache2", "data.db"] : List String),
      (200 : Nat)) ∈
      [((["roaming", "cache2", "data.db"] : List String),
        (["zen-profiles", "roaming", "cache2", "data.db"] : List String),
        (200 : Nat))] :=
  cleanup_deletes_filtered_counterpart ["cache2/*"] [] ["zen-profiles"]
    [(("roaming", ["prefs.js"]), ⟨100, 10, some "h1"⟩),
     (("roaming", ["cache2", "data.db"]), ⟨200, 10, some "h2"⟩)]
    ["prefs.js"] (FSForest.cons "cache2" ["data.db"] .nil .nil) false [] .nil
    [(["roaming", "cache2", "data.db"],
      ⟨200, 5, some "h2", ["zen-profiles", "roaming", "cache2", "data.db"]⟩)]
    true
    [(("roaming", ["prefs.js"]), ["zen-profiles", "roaming", "prefs.js"],
      100, "roaming")]
    []
    [(["roaming", "cache2", "data.db"],
      ["zen-profiles", "roaming", "cache2", "data.db"], 200)]
    ["cache2", "data.db"]
    ⟨200, 5, some "h2", ["zen-profiles", "roaming", "cache2", "data.db"]⟩
    ⟨200, 10, some "h2"⟩
    rfl (by decide) rfl (by decide)

/-! ## Characterization of the push analysis loop -/

/-- A successful push loop requires every scanned file to still stat,
and its outputs are pointwise described by `uploadItemFor` and
`skipItemFor`. -/
theorem analyzeUploadLoop_ok (pfx : List String) (fs : LocalFS)
    (s3 : S3Listing) (inc : Bool) :
    ∀ (files : List FileRef) (u : List UploadItem) (s : List SkipItem),
      analyzeUploadLoop pfx fs s3 inc files = .ok (u, s) →
      (∀ f ∈ files, (get_file_info fs f).isSome = true)
      ∧ u = files.filterMap (uploadItemFor pfx fs s3 inc)
      ∧ s = files.filterMap (skipItemFor pfx fs s3 inc) := by
  intro files
  induction files with
  | nil =>
    intro u s h
    rw [analyzeUploadLoop] at h
    cases h
    exact ⟨by simp, rfl, rfl⟩
  | cons g rest ih =>
    rcases g with ⟨pt, p⟩
    intro u s h
    rw [analyzeUploadLoop] at h
    rcases hinfo : get_file_info fs (pt, p) with _ | st
    · have hgs : getSize (get_file_info fs (pt, p)) = .error "KeyError: size" := by
        rw [hinfo]
        rfl
      rw [hgs] at h
      simp at h
    · have hgs : getSize (get_file_info fs (pt, p)) = .ok st.size := by
        rw [hinfo]
        rfl
      rw [hgs] at h
      rcases hrec : analyzeUploadLoop pfx fs s3 inc rest with e | ⟨u', s'⟩ <;>
        rw [hrec] at h
      · simp at h
      · dsimp only at h
        obtain ⟨hall, hu, hs⟩ := ih u' s' hrec
        by_cases hskip : uploadSkipTest fs s3 inc (pt, p) = true
        · rw [if_pos hskip] at h
          cases h
          refine ⟨?_, ?_, ?_⟩
          · intro f hf
            rcases List.mem_cons.mp hf with rfl | hf
            · rw [hinfo]
              rfl
            · exact hall f hf
          · simp [List.filterMap_cons, uploadItemFor, hinfo, hskip, hu]
          · simp [List.filterMap_cons, skipItemFor, hinfo, hskip, hs]
        · rw [if_neg hskip] at h
          cases h
          refine ⟨?_, ?_, ?_⟩
          · intro f hf
            rcases List.mem_cons.mp hf with rfl | hf
            · rw [hinfo]
              rfl
            · exact hall f hf
          · simp [List.filterMap_cons, uploadItemFor, hinfo, hskip, hu]
          · simp [List.filterMap_cons, skipItemFor, hinfo, hskip, hs]

/-! ## Characterization of the bidirectional analysis loops -/

/-- A successful both-sides loop resolves both lookups and a stat record
for every key it visits, and its outputs are pointwise described by
`bothUploadFor`, `bothDownloadFor` and `bothSkipFor`. -/
theorem bothSidesLoop_ok (lookup : List (List String × LocalEntry))
    (s3 : S3Listing) :
    ∀ (ks : List (List String)) (u : List UploadItem)
      (d : List DownloadItem) (s : List BidiSkipItem),
      bothSidesLoop lookup s3 ks = .ok (u, d, s) →
      (∀ k ∈ ks, ∃ le st, lookupEntry lookup k = some le
        ∧ (lookupS3 s3 k).isSome = true ∧ le.info = some st)
      ∧ u = ks.filterMap (bothUploadFor lookup s3)
      ∧ d = ks.filterMap (bothDownloadFor lookup s3)
      ∧ s = ks.filterMap (bothSkipFor lookup s3) := by
  intro ks
  induction ks with
  | nil =>
    intro u d s h
    rw [bothSidesLoop] at h
    cases h
    exact ⟨by simp, rfl, rfl, rfl⟩
  | cons k rest ih =>
    intro u d s h
    rw [bothSidesLoop] at h
    rcases hle : lookupEntry lookup k with _ | le <;>
      rcases ho : lookupS3 s3 k with _ | o <;>
        rw [hle, ho] at h <;> dsimp only at h
    · simp at h
    · simp at h
    · simp at h
    rcases hinfo : le.info with _ | st
    · by_cases hdiff : files_are_different le.info (some o.toStat) = false
      · rw [hinfo] at hdiff
        simp [files_are_different] at hdiff
      · rw [if_neg hdiff] at h
        have hgm : getMtime le.info = .error "KeyError: mtime" := by
          rw [hinfo]
          rfl
        rw [hgm] at h
        simp at h
    · have hgm : getMtime le.info = .ok st.mtime := by
        rw [hinfo]
        rfl
      have hgs : getSize le.info = .ok st.size := by
        rw [hinfo]
        rfl
      have hmemk : ∀ k' ∈ k :: rest,
          (∀ x ∈ rest, ∃ le st, lookupEntry lookup x = some le
            ∧ (lookupS3 s3 x).isSome = true ∧ le.info = some st) →
          ∃ le st, lookupEntry lookup k' = some le
            ∧ (lookupS3 s3 k').isSome = true ∧ le.info = some st := by
        intro k' hk' hall
        rcases List.mem_cons.mp hk' with rfl | hk'
        · exact ⟨le, st, hle, by rw [ho]; rfl, hinfo⟩
        · exact hall k' hk'
      by_cases hdiff : files_are_different le.info (some o.toStat) = false
      · rw [if_pos hdiff, hgs] at h
        rw [hinfo] at hdiff
        have hbu : bothUploadFor lookup s3 k = none := by
          simp [bothUploadFor, hle, ho, hinfo, hdiff]
        have hbd : bothDownloadFor lookup s3 k = none := by
          simp [bothDownloadFor, hle, ho, hinfo, hdiff]
        have hbs : bothSkipFor lookup s3 k = some (k, none, st.size) := by
          simp [bothSkipFor, hle, ho, hinfo, hdiff]
        rcases hrec : bothSidesLoop lookup s3 rest with e | ⟨u', d', s'⟩ <;>
          rw [hrec] at h <;> dsimp only at h
        · simp at h
        · obtain ⟨hall, hu, hd, hs⟩ := ih u' d' s' hrec
          cases h
          refine ⟨fun k' hk' => hmemk k' hk' hall, ?_, ?_, ?_⟩
          · rw [List.filterMap_cons, hbu]
            exact hu
          · rw [List.filterMap_cons, hbd]
            exact hd
          · rw [List.filterMap_cons, hbs, hs]
      · rw [if_neg hdiff, hgm] at h
        dsimp only at h
        rw [hinfo] at hdiff
        by_cases hlt : o.mtime < st.mtime
        · rw [if_pos hlt, hgs] at h
          have hbu : bothUploadFor lookup s3 k
              = some (le.path, o.s3_key, st.size, le.pathType) := by
            simp [bothUploadFor, hle, ho, hinfo, hdiff, hlt]
          have hbd : bothDownloadFor lookup s3 k = none := by
            simp [bothDownloadFor, hle, ho, hinfo, hdiff, hlt]
          have hbs : bothSkipFor lookup s3 k = none := by
            simp [bothSkipFor, hle, ho, hinfo, hdiff]
          rcases hrec : bothSidesLoop lookup s3 rest with e | ⟨u', d', s'⟩ <;>
            rw [hrec] at h <;> dsimp only at h
          · simp at h
          · obtain ⟨hall, hu, hd, hs⟩ := ih u' d' s' hrec
            cases h
            refine ⟨fun k' hk' => hmemk k' hk' hall, ?_, ?_, ?_⟩
            · rw [List.filterMap_cons, hbu, hu]
            · rw [List.filterMap_cons, hbd]
              exact hd
            · rw [List.filterMap_cons, hbs]
              exact hs
        · rw [if_neg hlt] at h
          have hbu : bothUploadFor lookup s3 k = none := by
            simp [bothUploadFor, hle, ho, hinfo, hdiff, hlt]
          have hbd : bothDownloadFor lookup s3 k
              = some (le.path, o.s3_key, o.size, k) := by
            simp [bothDownloadFor, hle, ho, hinfo, hdiff, hlt]
          have hbs : bothSkipFor lookup s3 k = none := by
            simp [bothSkipFor, hle, ho, hinfo, hdiff]
          rcases hrec : bothSidesLoop lookup s3 rest with e | ⟨u', d', s'⟩ <;>
            rw [hrec] at h <;> dsimp only at h
          · simp at h
          · obtain ⟨hall, hu, hd, hs⟩ := ih u' d' s' hrec
            cases h
            refine ⟨fun k' hk' => hmemk k' hk' hall, ?_, ?_, ?_⟩
            · rw [List.filterMap_cons, hbu]
              exact hu
            · rw [List.filterMap_cons, hbd, hd]
            · rw [List.filterMap_cons, hbs]
              exact hs

/-- A successful local-only loop resolves an entry and a stat record for
every key it visits, and its output is pointwise described by
`localOnlyFor`. -/
theorem localOnlyLoop_ok (pfx : List String)
    (lookup : List (List String × LocalEntry)) :
    ∀ (ks : List (List String)) (u : List UploadItem),
      localOnlyLoop pfx lookup ks = .ok u →
      (∀ k ∈ ks, ∃ le st, lookupEntry lookup k = some le
        ∧ le.info = some st)
      ∧ u = ks.filterMap (localOnlyFor pfx lookup) := by
  intro ks
  induction ks with
  | nil =>
    intro u h
    rw [localOnlyLoop] at h
    cases h
    exact ⟨by simp, rfl⟩
  | cons k rest ih =>
    intro u h
    rw [localOnlyLoop] at h
    rcases hle : lookupEntry lookup k with _ | le <;> rw [hle] at h <;>
      dsimp only at h
    · simp at h
    rcases hinfo : le.info with _ | st
    · have hgs : getSize le.info = .error "KeyError: size" := by
        rw [hinfo]
        rfl
      rw [hgs] at h
      simp at h
    · have hgs : getSize le.info = .ok st.size := by
        rw [hinfo]
        rfl
      rw [hgs] at h
      rcases hrec : localOnlyLoop pfx lookup rest with e | u' <;>
        rw [hrec] at h <;> dsimp only at h
      · simp at h
      · cases h
        obtain ⟨hall, hu⟩ := ih u' hrec
        refine ⟨?_, ?_⟩
        · intro k' hk'
          rcases List.mem_cons.mp hk' with rfl | hk'
          · exact ⟨le, st, hle, hinfo⟩
          · exact hall k' hk'
        · simp [List.filterMap_cons, localOnlyFor, hle, hinfo, hu]

/-- The remote-only loop is a `filterMap` over `s3OnlyFor`. -/
theorem s3OnlyLoop_eq (syncCacheData : Bool) (s3 : S3Listing) :
    ∀ ks : List (List String),
      s3OnlyLoop syncCacheData s3 ks = ks.filterMap (s3OnlyFor syncCacheData s3) := by
  intro ks
  induction ks with
  | nil => rfl
  | cons k rest ih =>
    rw [s3OnlyLoop, ih, List.filterMap_cons]
    rcases ho : lookupS3 s3 k with _ | o
    · simp [s3OnlyFor, ho]
    · rcases hdp : get_download_path syncCacheData k with _ | ⟨root, rel⟩
      · simp [s3OnlyFor, ho, hdp]
      · simp [s3OnlyFor, ho, hdp]

/-- Decomposition of a successful bidirectional analysis into its three
loops. -/
theorem analyze_bidirectional_sync_ok (pfx : List String) (sc : Bool)
    (lookup : List (List String × LocalEntry)) (s3 : S3Listing)
    (u : List UploadItem) (d : List DownloadItem) (s : List BidiSkipItem)
    (h : analyze_bidirectional_sync pfx sc lookup s3 = .ok (u, d, s)) :
    ∃ u1 d1 s1 u2,
      bothSidesLoop lookup s3
          ((lookup.map Prod.fst).filter (fun k => k ∈ s3.map Prod.fst))
        = .ok (u1, d1, s1)
      ∧ localOnlyLoop pfx lookup
          ((lookup.map Prod.fst).filter (fun k => ¬ k ∈ s3.map Prod.fst))
        = .ok u2
      ∧ u = u1 ++ u2
      ∧ d = d1 ++ s3OnlyLoop sc s3
          ((s3.map Prod.fst).filter (fun k => ¬ k ∈ lookup.map Prod.fst))
      ∧ s = s1 := by
  rw [analyze_bidirectional_sync] at h
  rcases h1 : bothSidesLoop lookup s3
      ((lookup.map Prod.fst).filter (fun k => k ∈ s3.map Prod.fst))
    with e | ⟨u1, d1, s1⟩ <;> rw [h1] at h <;> dsimp only at h
  · simp at h
  rcases h2 : localOnlyLoop pfx lookup
      ((lookup.map Prod.fst).filter (fun k => ¬ k ∈ s3.map Prod.fst))
    with e | u2 <;> rw [h2] at h <;> dsimp only at h
  · simp at h
  cases h
  exact ⟨u1, d1, s, u2, rfl, rfl, rfl, rfl, rfl⟩

/-! ## Association-list facts -/

/-- A successful `lookupEntry` result is a member of the list. -/
theorem lookupEntry_mem (l : List (List String × LocalEntry)) :
    ∀ (k : List String) (v : LocalEntry),
      lookupEntry l k = some v → (k, v) ∈ l := by
  induction l with
  | nil =>
    intro k v h
    simp [lookupEntry] at h
  | cons x rest ih =>
    rcases x with ⟨k0, v0⟩
    intro k v h
    rw [lookupEntry] at h
    by_cases hk : k0 = k
    · rw [if_pos hk] at h
      cases h
      subst hk
      exact List.mem_cons_self _ _
    · rw [if_neg hk] at h
      exact List.mem_cons_of_mem _ (ih k v h)

/-- A successful `lookupS3` result is a member of the listing. -/
theorem lookupS3_mem (s3 : S3Listing) :
    ∀ (k : List String) (o : S3Object),
      lookupS3 s3 k = some o → (k, o) ∈ s3 := by
  induction s3 with
  | nil =>
    intro k o h
    simp [lookupS3] at h
  | cons x rest ih =>
    rcases x with ⟨k0, o0⟩
    intro k o h
    rw [lookupS3] at h
    by_cases hk : k0 = k
    · rw [if_pos hk] at h
      cases h
      subst hk
      exact List.mem_cons_self _ _
    · rw [if_neg hk] at h
      exact List.mem_cons_of_mem _ (ih k o h)

/-- With duplicate-free keys, membership determines the lookup result in
the remote listing. -/
theorem lookupS3_of_mem_nodup (s3 : S3Listing) :
    ∀ (k : List String) (o : S3Object),
      (s3.map Prod.fst).Nodup → (k, o) ∈ s3 → lookupS3 s3 k = some o := by
  induction s3 with
  | nil =>
    intro k o _ h
    simp at h
  | cons x rest ih =>
    rcases x with ⟨k0, o0⟩
    intro k o hnd h
    rcases List.mem_cons.mp h with heq | h
    · cases heq
      rw [lookupS3, if_pos rfl]
    · rw [lookupS3]
      by_cases hk : k0 = k
      · exfalso
        have : k ∈ rest.map Prod.fst := List.mem_map_of_mem Prod.fst h
        rw [List.map_cons, List.nodup_cons] at hnd
        exact hnd.1 (hk ▸ this)
      · rw [if_neg hk]
        rw [List.map_cons, List.nodup_cons] at hnd
        exact ih k o hnd.2 h

/-- The keys of the bidirectional local map are the relative keys of the
scanned files. -/
theorem buildLocalLookup_map_fst (fs : LocalFS) (files : List FileRef) :
    (buildLocalLookup fs files).map Prod.fst
      = files.map (fun f => get_relative_s3_key f.1 f.2) := by
  simp [buildLocalLookup, List.map_map]

/-- With duplicate-free relative keys, the bidirectional local map
resolves each scanned file's key to that file's entry. -/
theorem buildLocalLookup_lookup_self (fs : LocalFS) :
    ∀ (files : List FileRef) (f : FileRef),
      (files.map (fun g => get_relative_s3_key g.1 g.2)).Nodup →
      f ∈ files →
      lookupEntry (buildLocalLookup fs files)
          (get_relative_s3_key f.1 f.2)
        = some ⟨f, get_file_info fs f, f.1⟩ := by
  intro files
  induction files with
  | nil =>
    intro f _ hf
    simp at hf
  | cons g rest ih =>
    intro f hnd hf
    rcases List.mem_cons.mp hf with rfl | hf
    · rw [buildLocalLookup, List.map_cons, lookupEntry, if_pos rfl]
    · rw [buildLocalLookup, List.map_cons, lookupEntry]
      by_cases hk : get_relative_s3_key g.1 g.2 = get_relative_s3_key f.1 f.2
      · exfalso
        have : get_relative_s3_key f.1 f.2
            ∈ rest.map (fun g => get_relative_s3_key g.1 g.2) :=
          List.mem_map_of_mem _ hf
        rw [List.map_cons, List.nodup_cons] at hnd
        exact hnd.1 (hk ▸ this)
      · rw [if_neg hk]
        rw [List.map_cons, List.nodup_cons] at hnd
        exact ih f hnd.2 hf

/-- Every entry of the bidirectional local map is keyed by the relative
key of its file, types itself with the file's path-type, and carries the
file's stat record. -/
theorem buildLocalLookup_entry_shape (fs : LocalFS) :
    ∀ (files : List FileRef) (k : List String) (le : LocalEntry),
      (k, le) ∈ buildLocalLookup fs files →
      k = get_relative_s3_key le.path.1 le.path.2
      ∧ le.pathType = le.path.1
      ∧ le.info = get_file_info fs le.path
      ∧ le.path ∈ files := by
  intro files k le h
  rcases List.mem_map.mp h with ⟨f, hf, heq⟩
  cases heq
  exact ⟨rfl, rfl, rfl, hf⟩

/-! ## Claim C10

`_get_file_info` returns the bare `{'exists': False}` record for a file
that vanished between the scan and the `stat` call.  The push analyzer
then reads `local_info['size']` (sync.py:356,359) and the bidirectional
analyzer reads `local_info['mtime']` (sync.py:478) or
`local_info['size']` (sync.py:475,495); each read raises `KeyError`,
which no handler inside the analysis catches — the whole analysis
aborts, unlike per-file transfer failures, which `_process_files`
catches individually. -/

/-- C10: if any scanned file's stat record is the vanished record, both
the push analyzer and the bidirectional analyzer abort with a key-lookup
error instead of recovering per file. -/
theorem vanished_file_aborts_analysis (pfx : List String) (fs : LocalFS)
    (files : List FileRef) (s3 : S3Listing) (inc cl sc : Bool) (f : FileRef)
    (hmem : f ∈ files) (hgone : get_file_info fs f = none)
    (hnodup : (files.map (fun g => get_relative_s3_key g.1 g.2)).Nodup) :
    (∃ e, analyze_upload_files pfx fs files s3 inc cl = .error e)
    ∧ (∃ e, analyze_bidirectional_sync pfx sc (buildLocalLookup fs files) s3
        = .error e) := by
  constructor
  · rcases hres : analyze_upload_files pfx fs files s3 inc cl
      with e | ⟨u, s, d⟩
    · exact ⟨e, rfl⟩
    · exfalso
      rw [analyze_upload_files] at hres
      rcases hloop : analyzeUploadLoop pfx fs s3 inc files
        with e | ⟨u', s'⟩ <;> rw [hloop] at hres <;> dsimp only at hres
      · simp at hres
      · obtain ⟨hall, _, _⟩ :=
          analyzeUploadLoop_ok pfx fs s3 inc files u' s' hloop
        have hsome := hall f hmem
        rw [hgone] at hsome
        simp at hsome
  · rcases hres : analyze_bidirectional_sync pfx sc
        (buildLocalLookup fs files) s3 with e | ⟨u, d, s⟩
    · exact ⟨e, rfl⟩
    · exfalso
      obtain ⟨u1, d1, s1, u2, hboth, honly, _, _, _⟩ :=
        analyze_bidirectional_sync_ok pfx sc _ s3 u d s hres
      have hkmem : get_relative_s3_key f.1 f.2
          ∈ (buildLocalLookup fs files).map Prod.fst := by
        rw [buildLocalLookup_map_fst]
        exact List.mem_map_of_mem _ hmem
      have hlk : lookupEntry (buildLocalLookup fs files)
          (get_relative_s3_key f.1 f.2)
          = some ⟨f, get_file_info fs f, f.1⟩ :=
        buildLocalLookup_lookup_self fs files f hnodup hmem
      by_cases hs3 : get_relative_s3_key f.1 f.2 ∈ s3.map Prod.fst
      · have hk2 : get_relative_s3_key f.1 f.2
            ∈ ((buildLocalLookup fs files).map Prod.fst).filter
              (fun k => k ∈ s3.map Prod.fst) :=
          List.mem_filter.mpr ⟨hkmem, by simp [hs3]⟩
        obtain ⟨hall, _, _, _⟩ := bothSidesLoop_ok _ s3 _ u1 d1 s1 hboth
        obtain ⟨le, st, hle, _, hinfo⟩ := hall _ hk2
        rw [hlk] at hle
        cases hle
        simp [hgone] at hinfo
      · have hk2 : get_relative_s3_key f.1 f.2
            ∈ ((buildLocalLookup fs files).map Prod.fst).filter
              (fun k => ¬ k ∈ s3.map Prod.fst) :=
          List.mem_filter.mpr ⟨hkmem, by simp [hs3]⟩
        obtain ⟨hall, _⟩ := localOnlyLoop_ok pfx _ _ u2 honly
        obtain ⟨le, st, hle, hinfo⟩ := hall _ hk2
        rw [hlk] at hle
        cases hle
        simp [hgone] at hinfo

/-- Witness for C10 at a concrete vanished file. -/
theorem vanished_file_aborts_analysis_witness :
    (∃ e, analyze_upload_files ["zen-profiles"] []
        [(("roaming" : String), ["gone.txt"])] [] true false = .error e)
    ∧ (∃ e, analyze_bidirectional_sync ["zen-profiles"] false
        (buildLocalLookup [] [(("roaming" : String), ["gone.txt"])]) []
        = .error e) :=
  vanished_file_aborts_analysis ["zen-profiles"] []
    [(("roaming" : String), ["gone.txt"])] [] true false false
    ("roaming", ["gone.txt"]) (by decide) rfl (by decide)

/-! ## Claim C6

For a relative key present on both sides, the both-sides loop
(sync.py:470-486) skips identical records and otherwise uploads exactly
when the local mtime is strictly greater than the remote one,
downloading in every other case — including the equal-mtime tie. -/

/-- C6: with duplicate-free keys on both sides and remote objects keyed
consistently (`s3_key` equals the prefix followed by the relative key),
a file present on both sides whose records the comparator judges
different is placed in the upload list exactly when its local mtime is
strictly greater than the remote mtime, and in the download list
exactly otherwise (so the equal-mtime tie downloads); a file judged
identical lands in the skip list. -/
theorem bidirectional_conflict_resolution (pfx : List String) (sc : Bool)
    (fs : LocalFS) (files : List FileRef) (s3 : S3Listing)
    (u : List UploadItem) (d : List DownloadItem) (sk : List BidiSkipItem)
    (pt : String) (p : List String) (o : S3Object) (st : FileStat)
    (hok : analyze_bidirectional_sync pfx sc (buildLocalLookup fs files) s3
      = .ok (u, d, sk))
    (hnodup : (files.map (fun g => get_relative_s3_key g.1 g.2)).Nodup)
    (hs3nodup : (s3.map Prod.fst).Nodup)
    (hkeys : ∀ x ∈ s3, x.2.s3_key = pfx ++ x.1)
    (hf : (pt, p) ∈ files)
    (hso : (get_relative_s3_key pt p, o) ∈ s3)
    (hst : get_file_info fs (pt, p) = some st) :
    (files_are_different (some st) (some o.toStat) = false →
      ∃ n, (get_relative_s3_key pt p, (none : Option (List String)), n) ∈ sk)
    ∧ (files_are_different (some st) (some o.toStat) = true →
      ((((pt, p), o.s3_key, st.size, pt) ∈ u) ↔ o.mtime < st.mtime)
      ∧ ((((pt, p), o.s3_key, o.size, get_relative_s3_key pt p) ∈ d)
          ↔ ¬ o.mtime < st.mtime)) := by
  obtain ⟨u1, d1, s1, u2, hboth, honly, hu, hd, hsk⟩ :=
    analyze_bidirectional_sync_ok pfx sc _ s3 u d sk hok
  have hlk : lookupEntry (buildLocalLookup fs files)
      (get_relative_s3_key pt p)
      = some ⟨(pt, p), get_file_info fs (pt, p), pt⟩ :=
    buildLocalLookup_lookup_self fs files (pt, p) hnodup hf
  have hlo : lookupS3 s3 (get_relative_s3_key pt p) = some o :=
    lookupS3_of_mem_nodup s3 _ o hs3nodup hso
  have hkmem : get_relative_s3_key pt p
      ∈ (buildLocalLookup fs files).map Prod.fst := by
    rw [buildLocalLookup_map_fst]
    exact List.mem_map_of_mem _ hf
  have hs3mem : get_relative_s3_key pt p ∈ s3.map Prod.fst :=
    List.mem_map_of_mem Prod.fst hso
  have hkboth : get_relative_s3_key pt p
      ∈ ((buildLocalLookup fs files).map Prod.fst).filter
        (fun k => k ∈ s3.map Prod.fst) :=
    List.mem_filter.mpr ⟨hkmem, by simp [hs3mem]⟩
  obtain ⟨_, hu1, hd1, hs1⟩ :=
    bothSidesLoop_ok (buildLocalLookup fs files) s3 _ u1 d1 s1 hboth
  obtain ⟨_, hu2⟩ :=
    localOnlyLoop_ok pfx (buildLocalLookup fs files) _ u2 honly
  constructor
  · intro hdiff
    have hbs : bothSkipFor (buildLocalLookup fs files) s3
        (get_relative_s3_key pt p)
        = some (get_relative_s3_key pt p, none, st.size) := by
      simp [bothSkipFor, hlk, hlo, hst, hdiff]
    refine ⟨st.size, ?_⟩
    rw [hsk, hs1]
    exact List.mem_filterMap.mpr ⟨_, hkboth, hbs⟩
  · intro hdiff
    constructor
    · constructor
      · intro hmemu
        rw [hu] at hmemu
        rcases List.mem_append.mp hmemu with hm | hm
        · rw [hu1] at hm
          rcases List.mem_filterMap.mp hm with ⟨k', hk', hk'eq⟩
          rcases hle' : lookupEntry (buildLocalLookup fs files) k'
            with _ | le'
          · simp [bothUploadFor, hle'] at hk'eq
          rcases hlo' : lookupS3 s3 k' with _ | o'
          · simp [bothUploadFor, hle', hlo'] at hk'eq
          rcases hinfo' : le'.info with _ | st'
          · simp [bothUploadFor, hle', hlo', hinfo'] at hk'eq
          simp only [bothUploadFor, hle', hlo', hinfo'] at hk'eq
          by_cases hd' :
              files_are_different (some st') (some o'.toStat) = false
          · simp [hd'] at hk'eq
          by_cases hlt' : o'.mtime < st'.mtime
          · simp [hd', hlt'] at hk'eq
            obtain ⟨hpath, hkey, hsize, hptEq⟩ := hk'eq
            have hmem' : (k', o') ∈ s3 := lookupS3_mem s3 k' o' hlo'
            have hkk : k' = get_relative_s3_key pt p := by
              have heq : pfx ++ k' = pfx ++ get_relative_s3_key pt p := by
                rw [← hkeys _ hmem', ← hkeys _ hso]
                exact hkey
              exact List.append_cancel_left heq
            rw [hkk] at hle' hlo'
            rw [hlk] at hle'
            injection hle' with hle2
            subst hle2
            rw [hlo] at hlo'
            injection hlo' with hlo2
            subst hlo2
            simp [hst] at hinfo'
            rw [← hinfo'] at hlt'
            exact hlt'
          · simp [hd', hlt'] at hk'eq
        · rw [hu2] at hm
          rcases List.mem_filterMap.mp hm with ⟨k', hk', hk'eq⟩
          rcases hle' : lookupEntry (buildLocalLookup fs files) k'
            with _ | le'
          · simp [localOnlyFor, hle'] at hk'eq
          rcases hinfo' : le'.info with _ | st'
          · simp [localOnlyFor, hle', hinfo'] at hk'eq
          simp [localOnlyFor, hle', hinfo'] at hk'eq
          obtain ⟨hpath, hkey, hsize, hptEq⟩ := hk'eq
          obtain ⟨hkshape, hptshape, _, _⟩ :=
            buildLocalLookup_entry_shape fs files k' le'
              (lookupEntry_mem _ k' le' hle')
          have hkk : k' = get_relative_s3_key pt p := by
            have heq : pfx ++ k' = pfx ++ get_relative_s3_key pt p := by
              rw [← hkeys _ hso]
              rw [← hkey]
              rw [get_s3_key, hptshape, ← hkshape]
            exact List.append_cancel_left heq
          exfalso
          have := (List.mem_filter.mp hk').2
          rw [hkk] at this
          simp [hs3mem] at this
      · intro hlt
        have hbu : bothUploadFor (buildLocalLookup fs files) s3
            (get_relative_s3_key pt p)
            = some ((pt, p), o.s3_key, st.size, pt) := by
          simp [bothUploadFor, hlk, hlo, hst, hdiff, hlt]
        rw [hu]
        exact List.mem_append.mpr
          (Or.inl (hu1 ▸ List.mem_filterMap.mpr ⟨_, hkboth, hbu⟩))
    · constructor
      · intro hmemd
        rw [hd] at hmemd
        rcases List.mem_append.mp hmemd with hm | hm
        · rw [hd1] at hm
          rcases List.mem_filterMap.mp hm with ⟨k', hk', hk'eq⟩
          rcases hle' : lookupEntry (buildLocalLookup fs files) k'
            with _ | le'
          · simp [bothDownloadFor, hle'] at hk'eq
          rcases hlo' : lookupS3 s3 k' with _ | o'
          · simp [bothDownloadFor, hle', hlo'] at hk'eq
          rcases hinfo' : le'.info with _ | st'
          · simp [bothDownloadFor, hle', hlo', hinfo'] at hk'eq
          simp only [bothDownloadFor, hle', hlo', hinfo'] at hk'eq
          by_cases hd' :
              files_are_different (some st') (some o'.toStat) = false
          · simp [hd'] at hk'eq
          by_cases hlt' : o'.mtime < st'.mtime
          · simp [hd', hlt'] at hk'eq
          · simp [hd', hlt'] at hk'eq
            obtain ⟨hpath, hkey, hsize, hkk⟩ := hk'eq
            rw [hkk] at hle' hlo'
            rw [hlk] at hle'
            injection hle' with hle2
            subst hle2
            rw [hlo] at hlo'
            injection hlo' with hlo2
            subst hlo2
            simp [hst] at hinfo'
            rw [← hinfo'] at hlt'
            exact hlt'
        · rw [s3OnlyLoop_eq] at hm
          rcases List.mem_filterMap.mp hm with ⟨k', hk', hk'eq⟩
          rcases hlo' : lookupS3 s3 k' with _ | o'
          · simp [s3OnlyFor, hlo'] at hk'eq
          rcases hdp : get_download_path sc k' with _ | ⟨root, rel⟩
          · simp [s3OnlyFor, hlo', hdp] at hk'eq
          simp [s3OnlyFor, hlo', hdp] at hk'eq
          obtain ⟨hpath, hkey, hsize, hkk⟩ := hk'eq
          exfalso
          have := (List.mem_filter.mp hk').2
          rw [hkk] at this
          simp [hkmem] at this
      · intro hnlt
        have hbd : bothDownloadFor (buildLocalLookup fs files) s3
            (get_relative_s3_key pt p)
            = some ((pt, p), o.s3_key, o.size, get_relative_s3_key pt p) := by
          simp [bothDownloadFor, hlk, hlo, hst, hdiff, hnlt]
        rw [hd]
        exact List.mem_append.mpr
          (Or.inl (hd1 ▸ List.mem_filterMap.mpr ⟨_, hkboth, hbd⟩))

/-- Witness for C6: a locally newer, hash-different `prefs.js` is placed
in the upload list. -/
theorem bidirectional_conflict_resolution_witness :
    ((("roaming", ["prefs.js"]) : FileRef),
      (["zen-profiles", "roaming", "prefs.js"] : List String), (100 : Nat),
      ("roaming" : String)) ∈
      [((("roaming", ["prefs.js"]) : FileRef),
        (["zen-profiles", "roaming", "prefs.js"] : List String), (100 : Nat),
        ("roaming" : String))] :=
  (((bidirectional_conflict_resolution ["zen-profiles"] false
      [(("roaming", ["prefs.js"]), ⟨100, 10, some "h1"⟩)]
      [("roaming", ["prefs.js"])]
      [(["roaming", "prefs.js"],
        ⟨100, 5, some "hX", ["zen-profiles", "roaming", "prefs.js"]⟩)]
      [(("roaming", ["prefs.js"]), ["zen-profiles", "roaming", "prefs.js"],
        100, "roaming")]
      [] []
      "roaming" ["prefs.js"]
      ⟨100, 5, some "hX", ["zen-profiles", "roaming", "prefs.js"]⟩
      ⟨100, 10, some "h1"⟩
      rfl (by decide) (by decide) (by decide) (by decide) (by decide)
      rfl).2
    (by decide)).1).mpr (by decide)

/-! ## Remote-state lemmas for push idempotence -/

/-- Lookup after a key update. -/
theorem lookupS3_updateS3 (k : List String) (o : S3Object) :
    ∀ (s3 : S3Listing) (key : List String),
      lookupS3 (updateS3 s3 k o) key
        = if k = key then some o else lookupS3 s3 key := by
  intro s3
  induction s3 with
  | nil =>
    intro key
    simp [updateS3, lookupS3]
  | cons x rest ih =>
    rcases x with ⟨k0, o0⟩
    intro key
    rw [updateS3]
    by_cases hk0 : k0 = k
    · rw [if_pos hk0, lookupS3]
      by_cases hkey : k = key
      · rw [if_pos hkey, if_pos hkey]
      · have hne0 : ¬ k0 = key := fun h => hkey (hk0.symm.trans h)
        rw [if_neg hkey, if_neg hkey, lookupS3, if_neg hne0]
    · rw [if_neg hk0, lookupS3]
      by_cases hkey : k0 = key
      · have hne : ¬ k = key := fun h => hk0 (hkey.trans h.symm)
        rw [if_pos hkey, if_neg hne, lookupS3, if_pos hkey]
      · rw [if_neg hkey, ih key, lookupS3, if_neg hkey]

/-- A freshly uploaded object compares identical to the file it was
uploaded from: with its hash (when usable) or with its size. -/
theorem files_are_different_after_upload (st : FileStat) (tm : Int)
    (key : List String) :
    files_are_different (some st)
      (some (S3Object.toStat ⟨st.size, tm, st.hash, key⟩)) = false := by
  by_cases h : hashTruthy st.hash = true <;>
    simp [files_are_different, S3Object.toStat, h]

/-- Applying uploads whose keys all differ from `key` leaves the listing
at `key` unchanged. -/
theorem applyUploads_lookup_preserved (fs : LocalFS) (tm : Int)
    (pfx : List String) :
    ∀ (ups : List UploadItem) (s3 : S3Listing) (key : List String),
      (∀ item ∈ ups, item.2.1.drop pfx.length ≠ key) →
      lookupS3 (applyUploads fs tm pfx ups s3) key = lookupS3 s3 key := by
  intro ups
  induction ups with
  | nil =>
    intro s3 key _
    rfl
  | cons item tl ih =>
    intro s3 key hne
    rw [applyUploads, List.foldl_cons]
    have hstep : lookupS3 (applyUpload fs tm pfx s3 item) key
        = lookupS3 s3 key := by
      rw [applyUpload]
      rcases hst : get_file_info fs item.1 with _ | st
      · rfl
      · rw [lookupS3_updateS3,
          if_neg (hne item (List.mem_cons_self _ _))]
    rw [← hstep]
    exact ih (applyUpload fs tm pfx s3 item) key
      (fun x hx => hne x (List.mem_cons_of_mem _ hx))

/-- If every upload targeting `key` writes the record `o`, and `key`
already resolves to `o`, it still resolves to `o` afterwards. -/
theorem applyUploads_lookup_stable (fs : LocalFS) (tm : Int)
    (pfx : List String) :
    ∀ (ups : List UploadItem) (s3 : S3Listing) (key : List String)
      (o : S3Object),
      (∀ item ∈ ups, item.2.1.drop pfx.length = key →
        ∃ st, get_file_info fs item.1 = some st
          ∧ o = ⟨st.size, tm, st.hash, item.2.1⟩) →
      lookupS3 s3 key = some o →
      lookupS3 (applyUploads fs tm pfx ups s3) key = some o := by
  intro ups
  induction ups with
  | nil =>
    intro s3 key o _ h0
    exact h0
  | cons item tl ih =>
    intro s3 key o hsame h0
    rw [applyUploads, List.foldl_cons]
    have hstep : lookupS3 (applyUpload fs tm pfx s3 item) key = some o := by
      rw [applyUpload]
      by_cases hk : item.2.1.drop pfx.length = key
      · obtain ⟨st, hst, ho⟩ := hsame item (List.mem_cons_self _ _) hk
        rw [hst, lookupS3_updateS3, if_pos hk, ho]
      · rcases hst : get_file_info fs item.1 with _ | st
        · exact h0
        · rw [lookupS3_updateS3, if_neg hk]
          exact h0
    exact ih (applyUpload fs tm pfx s3 item) key o
      (fun x hx => hsame x (List.mem_cons_of_mem _ hx)) hstep

/-- If some upload targets `key` and every upload targeting `key` writes
the record `o`, the final listing resolves `key` to `o`. -/
theorem applyUploads_lookup_set (fs : LocalFS) (tm : Int)
    (pfx : List String) :
    ∀ (ups : List UploadItem) (s3 : S3Listing) (key : List String)
      (o : S3Object),
      (∃ item ∈ ups, item.2.1.drop pfx.length = key) →
      (∀ item ∈ ups, item.2.1.drop pfx.length = key →
        ∃ st, get_file_info fs item.1 = some st
          ∧ o = ⟨st.size, tm, st.hash, item.2.1⟩) →
      lookupS3 (applyUploads fs tm pfx ups s3) key = some o := by
  intro ups
  induction ups with
  | nil =>
    intro s3 key o hex _
    rcases hex with ⟨item, hmem, _⟩
    simp at hmem
  | cons item tl ih =>
    intro s3 key o hex hsame
    by_cases hk : item.2.1.drop pfx.length = key
    · obtain ⟨st, hst, ho⟩ := hsame item (List.mem_cons_self _ _) hk
      rw [applyUploads, List.foldl_cons]
      apply applyUploads_lookup_stable fs tm pfx tl _ key o
        (fun x hx => hsame x (List.mem_cons_of_mem _ hx))
      rw [applyUpload, hst, lookupS3_updateS3, if_pos hk, ho]
    · rcases hex with ⟨item2, hmem2, hk2⟩
      rcases List.mem_cons.mp hmem2 with rfl | hmem2
      · exact absurd hk2 hk
      · rw [applyUploads, List.foldl_cons]
        exact ih (applyUpload fs tm pfx s3 item) key o ⟨item2, hmem2, hk2⟩
          (fun x hx => hsame x (List.mem_cons_of_mem _ hx))

/-- A second-run loop over files that all compare identical to the
current remote listing skips every file. -/
theorem analyzeUploadLoop_all_skip (pfx : List String) (fs : LocalFS)
    (s3x : S3Listing) :
    ∀ files : List FileRef,
      (∀ f ∈ files, ∃ st o, get_file_info fs f = some st
        ∧ lookupS3 s3x (get_relative_s3_key f.1 f.2) = some o
        ∧ files_are_different (some st) (some o.toStat) = false) →
      ∃ s2, analyzeUploadLoop pfx fs s3x true files = .ok ([], s2)
        ∧ s2.length = files.length := by
  intro files
  induction files with
  | nil =>
    intro _
    exact ⟨[], rfl, rfl⟩
  | cons f rest ih =>
    intro hprem
    obtain ⟨st, o, hst, ho, hdiff⟩ := hprem f (List.mem_cons_self _ _)
    obtain ⟨s2, hrec, hlen⟩ :=
      ih (fun g hg => hprem g (List.mem_cons_of_mem _ hg))
    have hskip : uploadSkipTest fs s3x true f = true := by
      simp [uploadSkipTest, ho, hst, hdiff]
    rcases f with ⟨pt, p⟩
    refine ⟨((pt, p), get_s3_key pfx pt p, st.size) :: s2, ?_, by
      simp [hlen]⟩
    rw [analyzeUploadLoop, hst]
    rw [show getSize (some st) = .ok st.size from rfl, hrec]
    dsimp only
    rw [if_pos hskip]

/-! ## Claim C9

After a successful incremental push records each uploaded file's size
and content hash remotely, a second incremental push with unchanged
local state skips every file: an uploaded file now compares identical to
its fresh remote record (by hash when the hash is usable, by size
otherwise), and a skipped file's remote record is untouched. -/

/-- C9: push is idempotent — with cleanup off and incremental on, a
second analysis against the remote listing produced by applying the
first run's uploads yields no uploads, no deletions, and a skip for
every file. -/
theorem push_idempotent (pfx : List String) (fs : LocalFS)
    (files : List FileRef) (s3 : S3Listing) (tm : Int)
    (u1 : List UploadItem) (s1 : List SkipItem)
    (hnodup : (files.map (fun g => get_relative_s3_key g.1 g.2)).Nodup)
    (h1 : analyze_upload_files pfx fs files s3 true false
      = .ok (u1, s1, [])) :
    ∃ s2, analyze_upload_files pfx fs files (applyUploads fs tm pfx u1 s3)
        true false = .ok ([], s2, []) ∧ s2.length = files.length := by
  have hloop : analyzeUploadLoop pfx fs s3 true files = .ok (u1, s1) := by
    rw [analyze_upload_files] at h1
    rcases hl : analyzeUploadLoop pfx fs s3 true files with e | ⟨u', s'⟩ <;>
      rw [hl] at h1 <;> dsimp only at h1
    · simp at h1
    · simp at h1
      rw [h1.1, h1.2]
  obtain ⟨hall, hu1, hs1⟩ :=
    analyzeUploadLoop_ok pfx fs s3 true files u1 s1 hloop
  have hinj : ∀ g ∈ files, ∀ f ∈ files,
      get_relative_s3_key g.1 g.2 = get_relative_s3_key f.1 f.2 → g = f :=
    fun g hg f hf h => List.inj_on_of_nodup_map hnodup hg hf h
  have hprem : ∀ f ∈ files, ∃ st o, get_file_info fs f = some st
      ∧ lookupS3 (applyUploads fs tm pfx u1 s3)
          (get_relative_s3_key f.1 f.2) = some o
      ∧ files_are_different (some st) (some o.toStat) = false := by
    intro f hf
    have hsome := hall f hf
    rcases hst : get_file_info fs f with _ | st
    · rw [hst] at hsome
      simp at hsome
    refine ⟨st, ?_⟩
    by_cases hskip : uploadSkipTest fs s3 true f = true
    · have hs0 := hskip
      rcases ho0 : lookupS3 s3 (get_relative_s3_key f.1 f.2) with _ | o0
      · simp [uploadSkipTest, ho0] at hs0
      · simp [uploadSkipTest, ho0, hst] at hs0
        refine ⟨o0, rfl, ?_, hs0⟩
        have hpres : lookupS3 (applyUploads fs tm pfx u1 s3)
            (get_relative_s3_key f.1 f.2)
            = lookupS3 s3 (get_relative_s3_key f.1 f.2) := by
          apply applyUploads_lookup_preserved
          intro item hitem
          rw [hu1] at hitem
          rcases List.mem_filterMap.mp hitem with ⟨g, hg, hgeq⟩
          rcases hstg : get_file_info fs g with _ | stg
          · simp [uploadItemFor, hstg] at hgeq
          by_cases hskg : uploadSkipTest fs s3 true g = true
          · simp [uploadItemFor, hstg, hskg] at hgeq
          · simp [uploadItemFor, hstg, hskg] at hgeq
            subst hgeq
            intro hkeyeq
            rw [show ((g, get_s3_key pfx g.1 g.2, stg.size, g.1) :
                UploadItem).2.1 = get_s3_key pfx g.1 g.2 from rfl,
              get_s3_key, List.drop_left] at hkeyeq
            have hgf : g = f := hinj g hg f hf hkeyeq
            rw [hgf] at hskg
            exact hskg hskip
        rw [hpres, ho0]
    · refine ⟨⟨st.size, tm, st.hash, get_s3_key pfx f.1 f.2⟩, rfl, ?_,
        files_are_different_after_upload st tm _⟩
      apply applyUploads_lookup_set
      · refine ⟨(f, get_s3_key pfx f.1 f.2, st.size, f.1), ?_, ?_⟩
        · rw [hu1]
          exact List.mem_filterMap.mpr
            ⟨f, hf, by simp [uploadItemFor, hst, hskip]⟩
        · rw [show ((f, get_s3_key pfx f.1 f.2, st.size, f.1) :
              UploadItem).2.1 = get_s3_key pfx f.1 f.2 from rfl,
            get_s3_key, List.drop_left]
      · intro item hitem hkeyeq
        rw [hu1] at hitem
        rcases List.mem_filterMap.mp hitem with ⟨g, hg, hgeq⟩
        rcases hstg : get_file_info fs g with _ | stg
        · simp [uploadItemFor, hstg] at hgeq
        by_cases hskg : uploadSkipTest fs s3 true g = true
        · simp [uploadItemFor, hstg, hskg] at hgeq
        · simp [uploadItemFor, hstg, hskg] at hgeq
          subst hgeq
          rw [show ((g, get_s3_key pfx g.1 g.2, stg.size, g.1) :
              UploadItem).2.1 = get_s3_key pfx g.1 g.2 from rfl,
            get_s3_key, List.drop_left] at hkeyeq
          have hgf : g = f := hinj g hg f hf hkeyeq
          subst hgf
          rw [hst] at hstg
          injection hstg with hstg2
          subst hstg2
          exact ⟨st, hst, rfl⟩
  obtain ⟨s2, hrun2, hlen⟩ :=
    analyzeUploadLoop_all_skip pfx fs (applyUploads fs tm pfx u1 s3)
      files hprem
  refine ⟨s2, ?_, hlen⟩
  rw [analyze_upload_files, hrun2]
  rfl

/-- Witness for C9: after pushing a single new `prefs.js`, a second
incremental analysis skips it. -/
theorem push_idempotent_witness :
    ∃ s2, analyze_upload_files ["zen-profiles"]
        [(("roaming", ["prefs.js"]), ⟨100, 10, some "h1"⟩)]
        [(("roaming" : String), ["prefs.js"])]
        (applyUploads [(("roaming", ["prefs.js"]), ⟨100, 10, some "h1"⟩)] 99
          ["zen-profiles"]
          [((("roaming", ["prefs.js"]) : FileRef),
            ["zen-profiles", "roaming", "prefs.js"], 100, "roaming")] [])
        true false = .ok ([], s2, [])
      ∧ s2.length = 1 :=
  push_idempotent ["zen-profiles"]
    [(("roaming", ["prefs.js"]), ⟨100, 10, some "h1"⟩)]
    [("roaming", ["prefs.js"])] [] 99
    [((("roaming", ["prefs.js"]) : FileRef),
      ["zen-profiles", "roaming", "prefs.js"], 100, "roaming")]
    [] (by decide) rfl

end ZenSync
